import Mathlib

/-!
Verification of the environment identity-resolution engine of
`data_product_tracker` (src layout: `src/data_product_tracker/`).

The relational store is modelled as an explicit record of table rows
(`Store`), the process-local TTL cache as an explicit record
(`EnvironmentCache`, with `time.time()` replaced by an explicit `now : Nat`
argument), and each Python function of `reflection.py`, `libraries.py` and
`models/environment.py` as a pure Lean function threading that state.
Exceptions are modelled with `Option`: a `none` result of a reflection
function models the `sqlalchemy` `IntegrityError`/`DatabaseError` escaping
as `RuntimeError` after the deterministic retries of `db_retry` are
exhausted.  The retry wrapper itself is modelled separately over an
abstract per-attempt outcome function.
-/

namespace DPT

/-- `variables.OSVariable` — named tuple `(key, value)`. -/
structure OSVariable where
  key : String
  value : String
deriving DecidableEq

/-- `libraries.Distribution` — named tuple `(name, version)`. -/
structure Distribution where
  name : String
  version : String
deriving DecidableEq

/-- Row of table `variables` (`models/environment.py` class `Variable`):
surrogate `id` plus the unique `(key, value)` pair. -/
structure Variable where
  id : Nat
  key : String
  value : String
deriving DecidableEq

/-- Row of table `libraries` (`models/environment.py` class `Library`):
surrogate `id` plus the unique `(name, version)` pair. -/
structure Library where
  id : Nat
  name : String
  version : String
deriving DecidableEq

/-- Row of table `environments` (`models/environment.py` class
`Environment`): surrogate `id` and `host`. -/
structure Environment where
  id : Nat
  host : String
deriving DecidableEq

/-- Row of table `variable_environment_mappings`. -/
structure VariableEnvironmentMap where
  environment_id : Nat
  variable_id : Nat
deriving DecidableEq

/-- Row of table `library_environment_mappings`. -/
structure LibraryEnvironmentMap where
  environment_id : Nat
  library_id : Nat
deriving DecidableEq

/-- The relational store: the five tables of the data model, in physical
row order, plus the next value of each surrogate-id sequence.
(`variables_table` models the `variables` table; `variables` is a reserved
word in Lean.) -/
structure Store where
  environments : List Environment
  variables_table : List Variable
  libraries : List Library
  variable_environment_mappings : List VariableEnvironmentMap
  library_environment_mappings : List LibraryEnvironmentMap
  next_environment_id : Nat
  next_variable_id : Nat
  next_library_id : Nat
deriving DecidableEq

/-- A store with empty tables and all id sequences starting at 1. -/
def emptyStore : Store where
  environments := []
  variables_table := []
  libraries := []
  variable_environment_mappings := []
  library_environment_mappings := []
  next_environment_id := 1
  next_variable_id := 1
  next_library_id := 1

/-- Python-dict lookup on an association list. -/
def kvGet {κ ν : Type} [DecidableEq κ] (l : List (κ × ν)) (k : κ) : Option ν :=
  (l.find? (fun p => decide (p.1 = k))).map (fun p => p.2)

/-- Python-dict deletion (`del d[k]` / `d.pop(k, None)`). -/
def kvPop {κ ν : Type} [DecidableEq κ] (l : List (κ × ν)) (k : κ) : List (κ × ν) :=
  l.filter (fun p => decide (p.1 ≠ k))

/-- Python-dict assignment `d[k] = v`.  Lookup semantics agree with the
dict; the entry order (which no modelled code observes) is not preserved. -/
def kvSet {κ ν : Type} [DecidableEq κ] (l : List (κ × ν)) (k : κ) (v : ν) : List (κ × ν) :=
  (k, v) :: kvPop l k

/-- Lexicographic strict order on code-point sequences, as Python
compares strings. -/
def charListLt : List Char → List Char → Bool
  | _, [] => false
  | [], _ :: _ => true
  | a :: as, b :: bs =>
    Nat.blt a.toNat b.toNat || (a.toNat == b.toNat && charListLt as bs)

/-- Python string `<`. -/
def strLt (a b : String) : Bool := charListLt a.data b.data

/-- Python string `<=`. -/
def strLe (a b : String) : Bool := strLt a b || a == b

/-- Python tuple `<=` on `(string, string)` pairs (lexicographic). -/
def pairLe (a b : String × String) : Bool :=
  strLt a.1 b.1 || (a.1 == b.1 && strLe a.2 b.2)

/-- Sorted insertion of a pair into a list (helper for `sortPairs`). -/
def insertPair (x : String × String) : List (String × String) → List (String × String)
  | [] => [x]
  | y :: ys => if pairLe x y then x :: y :: ys else y :: insertPair x ys

/-- `sorted(...)` on a list of string pairs: Python sorts tuples
lexicographically by code points.  Modelled as an insertion sort; any
sorting algorithm for the same total order produces the same list. -/
def sortPairs : List (String × String) → List (String × String)
  | [] => []
  | x :: xs => insertPair x (sortPairs xs)

/-- The cache key type: sorted variable pairs, sorted library pairs, hostname. -/
abbrev CacheKey := List (String × String) × List (String × String) × String

/-- `EnvironmentCache.get_key` (`reflection.py` lines 56-60). -/
def get_key (os_variables : List OSVariable) (distributions : List Distribution)
    (hostname : String) : CacheKey :=
  (sortPairs (os_variables.map (fun v => (v.key, v.value))),
   sortPairs (distributions.map (fun d => (d.name, d.version))),
   hostname)

/-- `EnvironmentCache` (`reflection.py` lines 47-80).  The two dicts
`_cache` and `_timestamps` are mutated in lockstep on the same keys, so
they are modelled as one association list `entries : key ↦ (value,
timestamp)`. -/
structure EnvironmentCache where
  entries : List (CacheKey × Nat × Nat)
  ttl : Nat
deriving DecidableEq

/-- `EnvironmentCache.get` (lines 62-70): return the value if present and
not expired; delete the entry if present but expired. -/
def EnvironmentCache.get (c : EnvironmentCache) (now : Nat) (k : CacheKey) :
    Option Nat × EnvironmentCache :=
  match kvGet c.entries k with
  | none => (none, c)
  | some (v, ts) =>
    if now - ts < c.ttl then (some v, c)
    else (none, { c with entries := kvPop c.entries k })

/-- `EnvironmentCache.set` (lines 72-75). -/
def EnvironmentCache.set (c : EnvironmentCache) (now : Nat) (k : CacheKey) (v : Nat) :
    EnvironmentCache :=
  { c with entries := kvSet c.entries k (v, now) }

/-- The stale-entry eviction of `get_matching_environment_single_query`
(lines 318-321): `_cache.pop(key, None)` and `_timestamps.pop(key, None)`. -/
def EnvironmentCache.pop (c : EnvironmentCache) (k : CacheKey) : EnvironmentCache :=
  { c with entries := kvPop c.entries k }

/-- The module-level `_env_cache = EnvironmentCache()` in its initial
state (`ttl_seconds=300`). -/
def emptyCache : EnvironmentCache where
  entries := []
  ttl := 300

/-- Loop of `libraries.yield_distributions` (`libraries.py` lines 19-27)
with the running `mask` set made explicit. -/
def yield_distributions_from (mask : List Distribution) :
    List Distribution → List Distribution
  | [] => []
  | d :: rest =>
    if d ∈ mask then yield_distributions_from mask rest
    else d :: yield_distributions_from (d :: mask) rest

/-- `libraries.yield_distributions` (lines 11-27), as a function of the
sequence of installed distributions reported by `importlib.metadata`:
yields each distribution once, skipping exact `(name, version)` repeats
(the `mask` set stores whole `Distribution` tuples). -/
def yield_distributions (installed : List Distribution) : List Distribution :=
  yield_distributions_from [] installed

/-- Insertion of one `Library` row (`db.add` + `db.flush` in the SQLite
branch of `reflect_libraries_bulk`, lines 182-187; the PostgreSQL bulk
`INSERT .. RETURNING` branch allocates ids in the same order).  `none`
models the `IntegrityError` raised when `UNIQUE (name, version)` is
violated. -/
def insert_library (s : Store) (d : Distribution) : Option (Store × Nat) :=
  if s.libraries.any (fun r => r.name == d.name && r.version == d.version) then
    none
  else
    some ({ s with
            libraries := s.libraries ++ [⟨s.next_library_id, d.name, d.version⟩],
            next_library_id := s.next_library_id + 1 },
          s.next_library_id)

/-- The `for dist in to_create` insertion loop of `reflect_libraries_bulk`
(lines 162-187), threading the store and the `result_map` dict. -/
def insert_libraries : Store → List ((String × String) × Nat) → List Distribution →
    Option (Store × List ((String × String) × Nat))
  | s, m, [] => some (s, m)
  | s, m, d :: rest =>
    match insert_library s d with
    | none => none
    | some (s', i) => insert_libraries s' (kvSet m (d.name, d.version) i) rest

/-- Insertion of one `Variable` row (`db.add` + `db.flush` in
`reflect_variables_bulk`, lines 266-272).  `none` models the
`IntegrityError` raised when `UNIQUE (key, value)` is violated. -/
def insert_variable (s : Store) (v : OSVariable) : Option (Store × Nat) :=
  if s.variables_table.any (fun r => r.key == v.key && r.value == v.value) then
    none
  else
    some ({ s with
            variables_table := s.variables_table ++ [⟨s.next_variable_id, v.key, v.value⟩],
            next_variable_id := s.next_variable_id + 1 },
          s.next_variable_id)

/-- The `for var in to_create` insertion loop of `reflect_variables_bulk`
(lines 247-272). -/
def insert_variables : Store → List ((String × String) × Nat) → List OSVariable →
    Option (Store × List ((String × String) × Nat))
  | s, m, [] => some (s, m)
  | s, m, v :: rest =>
    match insert_variable s v with
    | none => none
    | some (s', i) => insert_variables s' (kvSet m (v.key, v.value) i) rest

/-- `reflect_libraries_bulk` (`reflection.py` lines 108-191).  Result:
`(result_map, store, statements)` where `statements` counts the SQL
statements issued (one batched SELECT plus one INSERT per created row).
The function is `@db_retry()`-wrapped in the source; since the model is
deterministic, a first-attempt `IntegrityError` repeats on every retry and
escapes as `RuntimeError`, modelled as `none`. -/
def reflect_libraries_bulk (s : Store) (distributions : List Distribution) :
    Option (List ((String × String) × Nat) × Store × Nat) :=
  if distributions.isEmpty then some ([], s, 0)
  else
    let existing := s.libraries.filter
      (fun r => distributions.any (fun d => d.name == r.name && d.version == r.version))
    let result_map := existing.foldl (fun m r => kvSet m (r.name, r.version) r.id) []
    let to_create := distributions.filter
      (fun d => !(result_map.any (fun p => p.1 == (d.name, d.version))))
    match insert_libraries s result_map to_create with
    | none => none
    | some (s', m') => some (m', s', 1 + to_create.length)

/-- `reflect_variables_bulk` (`reflection.py` lines 194-276), modelled
like `reflect_libraries_bulk`. -/
def reflect_variables_bulk (s : Store) (os_variables : List OSVariable) :
    Option (List ((String × String) × Nat) × Store × Nat) :=
  if os_variables.isEmpty then some ([], s, 0)
  else
    let existing := s.variables_table.filter
      (fun r => os_variables.any (fun v => v.key == r.key && v.value == r.value))
    let result_map := existing.foldl (fun m r => kvSet m (r.key, r.value) r.id) []
    let to_create := os_variables.filter
      (fun v => !(result_map.any (fun p => p.1 == (v.key, v.value))))
    match insert_variables s result_map to_create with
    | none => none
    | some (s', m') => some (m', s', 1 + to_create.length)

/-- `reflect_libraries` (lines 382-403): bulk reflect, then gather the ids
of the input distributions into a `set`.  The dict access
`bulk_result[(d.name, d.version)]` cannot miss when the bulk call
succeeds (coverage is proved below); the `getD 0` default is never used. -/
def reflect_libraries (s : Store) (distributions : List Distribution) :
    Option (Finset Nat × Store) :=
  match reflect_libraries_bulk s distributions with
  | none => none
  | some (m, s', _) =>
    some ((distributions.map (fun d => (kvGet m (d.name, d.version)).getD 0)).toFinset, s')

/-- `reflect_variables` (lines 406-427): bulk reflect, then return the ids
as a list in input order. -/
def reflect_variables (s : Store) (os_variables : List OSVariable) :
    Option (List Nat × Store) :=
  match reflect_variables_bulk s os_variables with
  | none => none
  | some (m, s', _) =>
    some (os_variables.map (fun v => (kvGet m (v.key, v.value)).getD 0), s')

/-- The `(key, value)` pairs of a variable list (the tuple `IN` list of
the `matching_var_envs` CTE, lines 332-335). -/
def var_pair_list (vs : List OSVariable) : List (String × String) :=
  vs.map (fun v => (v.key, v.value))

/-- The `(name, version)` pairs of a distribution list (lines 347-349). -/
def dist_pair_list (ds : List Distribution) : List (String × String) :=
  ds.map (fun d => (d.name, d.version))

/-- `COUNT(*)` of the `matching_var_envs` CTE for one environment id:
join rows of `variable_environment_mappings` with `variables` whose
`(key, value)` is in the target pair list, grouped on `environment_id`
(lines 327-339). -/
def varMatchCount (s : Store) (vs : List OSVariable) (envId : Nat) : Nat :=
  ((s.variable_environment_mappings.filter (fun m => m.environment_id == envId)).map
    (fun m => (s.variables_table.filter
      (fun r => r.id == m.variable_id && (var_pair_list vs).contains (r.key, r.value))).length)).sum

/-- `COUNT(*)` of the `matching_lib_envs` CTE for one environment id
(lines 342-354). -/
def libMatchCount (s : Store) (ds : List Distribution) (envId : Nat) : Nat :=
  ((s.library_environment_mappings.filter (fun m => m.environment_id == envId)).map
    (fun m => (s.libraries.filter
      (fun r => r.id == m.library_id && (dist_pair_list ds).contains (r.name, r.version))).length)).sum

/-- The main SELECT of `get_matching_environment_single_query` before
`LIMIT 1` (lines 356-370): environments of the requested host, restricted
to the variable CTE when `os_variables` is non-empty and to the library
CTE when `distributions` is non-empty, in physical row order. -/
def env_candidates (s : Store) (vs : List OSVariable) (ds : List Distribution)
    (hostname : String) : List Environment :=
  s.environments.filter (fun env =>
    env.host == hostname
    && (vs.isEmpty || varMatchCount s vs env.id == vs.length)
    && (ds.isEmpty || libMatchCount s ds env.id == ds.length))

/-- `db.scalar(query.limit(1))` (lines 371-373): the id of the first
surviving row in row order, if any.  The query has no ORDER BY, so "first"
is the store's physical row order. -/
def query_scalar (s : Store) (vs : List OSVariable) (ds : List Distribution)
    (hostname : String) : Option Nat :=
  (env_candidates s vs ds hostname).head?.map (fun env => env.id)

/-- Lines 323-379 of `get_matching_environment_single_query`: run the main
query and cache a non-`None` result under `cache_key`. -/
def matching_query_fallthrough (s : Store) (cache : EnvironmentCache) (now : Nat)
    (cache_key : CacheKey) (vs : List OSVariable) (ds : List Distribution)
    (hostname : String) : Option Nat × EnvironmentCache :=
  match query_scalar s vs ds hostname with
  | some i => (some i, cache.set now cache_key i)
  | none => (none, cache)

/-- `get_matching_environment_single_query` (`reflection.py` lines
279-379) with the global `_env_cache` and the clock passed explicitly:
consult the cache, verify a hit against the `environments` table, evict a
stale hit, otherwise run the single CTE query. -/
def get_matching_environment_single_query (s : Store) (cache : EnvironmentCache)
    (now : Nat) (os_variables : List OSVariable) (distributions : List Distribution)
    (hostname : String) : Option Nat × EnvironmentCache :=
  let cache_key := get_key os_variables distributions hostname
  match cache.get now cache_key with
  | (some cached_env_id, cache') =>
    if s.environments.any (fun env => env.id == cached_env_id) then
      (some cached_env_id, cache')
    else
      matching_query_fallthrough s (cache'.pop cache_key) now cache_key
        os_variables distributions hostname
  | (none, cache') =>
    matching_query_fallthrough s cache' now cache_key os_variables distributions hostname

/-- `VariableEnvironmentMap.matching_env_id_q`
(`models/environment.py` lines 61-82): environment ids grouped from the
association rows whose joined variable matches one of the requested
`(key, value)` pairs, keeping groups whose row count equals
`len(os_variables)`.  A group exists only if at least one filtered row
exists, hence the positivity conjunct. -/
def VariableEnvironmentMap.matching_env_id_q (s : Store) (os_variables : List OSVariable) :
    List Nat :=
  ((s.variable_environment_mappings.map (fun m => m.environment_id)).dedup).filter
    (fun eid => decide (0 < varMatchCount s os_variables eid)
      && varMatchCount s os_variables eid == os_variables.length)

/-- `get_environment` (`reflection.py` lines 477-511).  A `none` first
component models the raised `ModelDoesNotExist`. -/
def get_environment (s : Store) (cache : EnvironmentCache) (now : Nat)
    (environ : List OSVariable) (distributions : List Distribution)
    (hostname : String) : Option Nat × EnvironmentCache :=
  get_matching_environment_single_query s cache now environ distributions hostname

/-- `get_or_create_env` (`reflection.py` lines 514-588) with explicit
`environ` and `distributions` (the source only defaults them to the live
OS snapshot when they are `None`).  `none` models a `RuntimeError`
escaping from a retry-wrapped bulk reflection; otherwise the result is
`((environment_id, created), store, cache)`. -/
def get_or_create_env (s : Store) (cache : EnvironmentCache) (now : Nat)
    (environ : List OSVariable) (distributions : List Distribution)
    (hostname : String) : Option ((Nat × Bool) × Store × EnvironmentCache) :=
  match get_environment s cache now environ distributions hostname with
  | (some env_id, cache') => some ((env_id, false), s, cache')
  | (none, cache') =>
    match reflect_libraries_bulk s distributions with
    | none => none
    | some (library_map, s1, _) =>
      match reflect_variables_bulk s1 environ with
      | none => none
      | some (variable_map, s2, _) =>
        let envId := s2.next_environment_id
        let s3 : Store := { s2 with
          environments := s2.environments ++ [⟨envId, hostname⟩],
          next_environment_id := envId + 1,
          library_environment_mappings := s2.library_environment_mappings ++
            library_map.map (fun p => ⟨envId, p.2⟩),
          variable_environment_mappings := s2.variable_environment_mappings ++
            variable_map.map (fun p => ⟨envId, p.2⟩) }
        let cache_key := get_key environ distributions hostname
        some ((envId, true), s3, cache'.set now cache_key envId)

/-- Outcome of one attempt of a `db_retry`-wrapped function: normal
return, a `sqlalchemy.exc.DatabaseError` (the only class the wrapper
catches), or any other exception, each carrying a message. -/
inductive DbOutcome (α : Type) where
  | ok : α → DbOutcome α
  | dbError : String → DbOutcome α
  | otherError : String → DbOutcome α
deriving DecidableEq

/-- How a call through the `db_retry` wrapper ends: a returned value, a
`RuntimeError` raised `from` the carried `DatabaseError`, an uncaught
exception propagating to the caller, or the implicit `None` returned when
the `while` loop exits without a result (only reachable when
`max_retries < 1`). -/
inductive RetryResult (α : Type) where
  | value : α → RetryResult α
  | runtimeError : String → RetryResult α
  | uncaught : String → RetryResult α
  | returnedNone : RetryResult α
deriving DecidableEq

/-- Result of `db_retry` plus how many attempts were made and how many
times `sleep` was called.  The sleep durations (`0.5 * backoff_factor^k`)
are irrelevant to the claims and abstracted to the call count. -/
structure RetryOutput (α : Type) where
  result : RetryResult α
  attempts : Nat
  sleeps : Nat
deriving DecidableEq

/-- The `while current_try <= max_retries` loop of `db_retry`
(`reflection.py` lines 27-40).  The wrapped function is modelled as a map
from attempt number to outcome.  `remaining` is the structural counter
`max_retries + 1 - current_try`, so `remaining = 0` is exactly the failed
loop guard. -/
def db_retry_loop {α : Type} (max_retries : Nat) (f : Nat → DbOutcome α) :
    Nat → Nat → Nat → Nat → RetryOutput α
  | 0, _, attempts, sleeps => ⟨.returnedNone, attempts, sleeps⟩
  | remaining + 1, current_try, attempts, sleeps =>
    match f current_try with
    | .ok a => ⟨.value a, attempts + 1, sleeps⟩
    | .otherError m => ⟨.uncaught m, attempts + 1, sleeps⟩
    | .dbError m =>
      if current_try + 1 ≥ max_retries then ⟨.runtimeError m, attempts + 1, sleeps + 1⟩
      else db_retry_loop max_retries f remaining (current_try + 1) (attempts + 1) (sleeps + 1)

/-- `db_retry` (`reflection.py` lines 19-43): run the wrapped function
starting at `current_try = 1`. -/
def db_retry {α : Type} (max_retries : Nat) (f : Nat → DbOutcome α) : RetryOutput α :=
  db_retry_loop max_retries f (max_retries + 1 - 1) 1 0 0

/-- Concrete store for the exact-set-matching scenario of the spec:
environment 1 on host `h` is associated with exactly the variables
`A = (A, a)` (id 1) and `B = (B, b)` (id 2). -/
def store_ab : Store where
  environments := [⟨1, "h"⟩]
  variables_table := [⟨1, "A", "a"⟩, ⟨2, "B", "b"⟩]
  libraries := []
  variable_environment_mappings := [⟨1, 1⟩, ⟨1, 2⟩]
  library_environment_mappings := []
  next_environment_id := 2
  next_variable_id := 3
  next_library_id := 1

/-- Concrete store with two environments that both match the variable set
`{(A, a)}` exactly; the row for environment 2 physically precedes the row
for environment 1. -/
def store_two_candidates : Store where
  environments := [⟨2, "h"⟩, ⟨1, "h"⟩]
  variables_table := [⟨1, "A", "a"⟩]
  libraries := []
  variable_environment_mappings := [⟨2, 1⟩, ⟨1, 1⟩]
  library_environment_mappings := []
  next_environment_id := 3
  next_variable_id := 2
  next_library_id := 1

/-- Concrete store that already holds the variable `(K, v)` (id 1) and the
library `(numpy, 1)` (id 1). -/
def store_leaves : Store where
  environments := []
  variables_table := [⟨1, "K", "v"⟩]
  libraries := [⟨1, "numpy", "1"⟩]
  variable_environment_mappings := []
  library_environment_mappings := []
  next_environment_id := 1
  next_variable_id := 2
  next_library_id := 2

/-- Concrete store holding only environment 7 on host `h`, with no
associations at all. -/
def store_host_only : Store where
  environments := [⟨7, "h"⟩]
  variables_table := []
  libraries := []
  variable_environment_mappings := []
  library_environment_mappings := []
  next_environment_id := 8
  next_variable_id := 1
  next_library_id := 1

/-- A cache holding environment id 9 for the key of the empty query on
host `h`, stored at time 0. -/
def cache_with_stale_hit : EnvironmentCache where
  entries := [(get_key [] [] "h", 9, 0)]
  ttl := 300

/-- A cache holding environment id 7 for the key of the empty query on
host `h`, stored at time 0. -/
def cache_with_live_hit : EnvironmentCache where
  entries := [(get_key [] [] "h", 7, 0)]
  ttl := 300

/-- A wrapped operation that raises `sqlalchemy.exc.DatabaseError` on
every attempt. -/
def always_db_error : Nat → DbOutcome Unit :=
  fun _ => DbOutcome.dbError "deadlock detected"

/-- A wrapped operation that raises a non-database configuration error on
every attempt. -/
def always_config_error : Nat → DbOutcome Unit :=
  fun _ => DbOutcome.otherError "configuration error"

theorem kvGet_kvSet_self {κ ν : Type} [DecidableEq κ] (l : List (κ × ν)) (k : κ) (v : ν) :
    kvGet (kvSet l k v) k = some v := by
  simp [kvGet, kvSet, List.find?]

theorem charListLt_asymm : ∀ as bs : List Char,
    charListLt as bs = true → charListLt bs as = true → False := by
  intro as
  induction as with
  | nil =>
    intro bs h1 h2
    cases bs with
    | nil => simp [charListLt] at h1
    | cons b bs' => simp [charListLt] at h2
  | cons a as' ih =>
    intro bs h1 h2
    cases bs with
    | nil => simp [charListLt] at h1
    | cons b bs' =>
      simp only [charListLt, Bool.or_eq_true, Bool.and_eq_true, Nat.blt_eq,
        beq_iff_eq] at h1 h2
      rcases h1 with h1 | ⟨h1e, h1r⟩ <;> rcases h2 with h2 | ⟨h2e, h2r⟩
      · omega
      · omega
      · omega
      · exact ih bs' h1r h2r

theorem charListLt_connex : ∀ as bs : List Char,
    charListLt as bs = false → charListLt bs as = false → as = bs := by
  intro as
  induction as with
  | nil =>
    intro bs h1 _
    cases bs with
    | nil => rfl
    | cons b bs' => simp [charListLt] at h1
  | cons a as' ih =>
    intro bs h1 h2
    cases bs with
    | nil => simp [charListLt] at h2
    | cons b bs' =>
      simp only [charListLt, Bool.or_eq_false_iff, Bool.and_eq_false_iff] at h1 h2
      obtain ⟨h1b, h1r⟩ := h1
      obtain ⟨h2b, h2r⟩ := h2
      have h1n : ¬(a.toNat < b.toNat) := by
        intro hlt
        rw [← Nat.blt_eq] at hlt
        rw [h1b] at hlt
        exact Bool.false_ne_true hlt
      have h2n : ¬(b.toNat < a.toNat) := by
        intro hlt
        rw [← Nat.blt_eq] at hlt
        rw [h2b] at hlt
        exact Bool.false_ne_true hlt
      have hab : a = b := by
        have hn : a.toNat = b.toNat := by omega
        exact Char.eq_of_val_eq (UInt32.ext hn)
      subst hab
      have h1t : charListLt as' bs' = false := by
        rcases h1r with h | h
        · simp at h
        · exact h
      have h2t : charListLt bs' as' = false := by
        rcases h2r with h | h
        · simp at h
        · exact h
      rw [ih bs' h1t h2t]

theorem strLt_asymm (a b : String) (h1 : strLt a b = true) (h2 : strLt b a = true) : False :=
  charListLt_asymm a.data b.data h1 h2

theorem strLt_connex (a b : String) (h1 : strLt a b = false) (h2 : strLt b a = false) :
    a = b :=
  String.ext (charListLt_connex a.data b.data h1 h2)

theorem strLt_irrefl (a : String) : strLt a a = false := by
  cases h : strLt a a
  · rfl
  · exact absurd h (fun h' => strLt_asymm a a h' h')

theorem charListLt_trans : ∀ as bs cs : List Char,
    charListLt as bs = true → charListLt bs cs = true → charListLt as cs = true := by
  intro as
  induction as with
  | nil =>
    intro bs cs h1 h2
    cases bs with
    | nil => simp [charListLt] at h1
    | cons b bs' =>
      cases cs with
      | nil => simp [charListLt] at h2
      | cons c cs' => simp [charListLt]
  | cons a as' ih =>
    intro bs cs h1 h2
    cases bs with
    | nil => simp [charListLt] at h1
    | cons b bs' =>
      cases cs with
      | nil => simp [charListLt] at h2
      | cons c cs' =>
        simp only [charListLt, Bool.or_eq_true, Bool.and_eq_true, Nat.blt_eq,
          beq_iff_eq] at h1 h2 ⊢
        rcases h1 with h1 | ⟨h1e, h1r⟩ <;> rcases h2 with h2 | ⟨h2e, h2r⟩
        · exact Or.inl (by omega)
        · exact Or.inl (by omega)
        · exact Or.inl (by omega)
        · exact Or.inr ⟨by omega, ih bs' cs' h1r h2r⟩

theorem strLt_trans (a b c : String) (h1 : strLt a b = true) (h2 : strLt b c = true) :
    strLt a c = true :=
  charListLt_trans a.data b.data c.data h1 h2

theorem strLe_trans (a b c : String) (h1 : strLe a b = true) (h2 : strLe b c = true) :
    strLe a c = true := by
  simp only [strLe, Bool.or_eq_true, beq_iff_eq] at h1 h2 ⊢
  rcases h1 with h1 | rfl
  · rcases h2 with h2 | rfl
    · exact Or.inl (strLt_trans a b c h1 h2)
    · exact Or.inl h1
  · exact h2

theorem pairLe_total (a b : String × String) : pairLe a b = true ∨ pairLe b a = true := by
  cases h1 : strLt a.1 b.1
  · cases h1r : strLt b.1 a.1
    · have he : a.1 = b.1 := strLt_connex a.1 b.1 h1 h1r
      cases h2 : strLt a.2 b.2
      · cases h2r : strLt b.2 a.2
        · have he2 : a.2 = b.2 := strLt_connex a.2 b.2 h2 h2r
          exact Or.inl (by simp [pairLe, strLe, he, he2])
        · exact Or.inr (by simp [pairLe, strLe, he, h2r])
      · exact Or.inl (by simp [pairLe, strLe, he, h2])
    · exact Or.inr (by simp [pairLe, h1r])
  · exact Or.inl (by simp [pairLe, h1])

theorem pairLe_antisymm (a b : String × String) (h1 : pairLe a b = true)
    (h2 : pairLe b a = true) : a = b := by
  simp only [pairLe, strLe, Bool.or_eq_true, Bool.and_eq_true, beq_iff_eq] at h1 h2
  rcases h1 with h1 | ⟨h1e, h1r⟩
  · rcases h2 with h2 | ⟨h2e, h2r⟩
    · exact absurd h2 (fun h' => strLt_asymm a.1 b.1 h1 h')
    · rw [h2e] at h1
      rw [strLt_irrefl] at h1
      exact absurd h1 Bool.false_ne_true
  · rcases h2 with h2 | ⟨h2e, h2r⟩
    · rw [h1e] at h2
      rw [strLt_irrefl] at h2
      exact absurd h2 Bool.false_ne_true
    · have he2 : a.2 = b.2 := by
        rcases h1r with h1s | h1s
        · rcases h2r with h2s | h2s
          · exact absurd h2s (fun h' => strLt_asymm a.2 b.2 h1s h')
          · exact h2s.symm
        · exact h1s
      exact Prod.ext h1e he2

theorem pairLe_trans (a b c : String × String) (h1 : pairLe a b = true)
    (h2 : pairLe b c = true) : pairLe a c = true := by
  simp only [pairLe, Bool.or_eq_true, Bool.and_eq_true, beq_iff_eq] at h1 h2 ⊢
  rcases h1 with h1 | ⟨h1e, h1r⟩
  · rcases h2 with h2 | ⟨h2e, h2r⟩
    · exact Or.inl (strLt_trans a.1 b.1 c.1 h1 h2)
    · exact Or.inl (h2e ▸ h1)
  · rcases h2 with h2 | ⟨h2e, h2r⟩
    · exact Or.inl (h1e ▸ h2)
    · exact Or.inr ⟨h1e.trans h2e, strLe_trans a.2 b.2 c.2 h1r h2r⟩

theorem insertPair_perm (x : String × String) (l : List (String × String)) :
    (insertPair x l).Perm (x :: l) := by
  induction l with
  | nil => exact List.Perm.refl _
  | cons y ys ih =>
    by_cases h : pairLe x y = true
    · simp only [insertPair, if_pos h]
      exact List.Perm.refl _
    · simp only [insertPair, if_neg h]
      exact (ih.cons y).trans (List.Perm.swap x y ys)

theorem mem_insertPair {x z : String × String} {l : List (String × String)}
    (h : z ∈ insertPair x l) : z = x ∨ z ∈ l :=
  List.mem_cons.mp ((insertPair_perm x l).mem_iff.mp h)

theorem pairwise_insertPair (x : String × String) {l : List (String × String)}
    (h : l.Pairwise (fun a b => pairLe a b = true)) :
    (insertPair x l).Pairwise (fun a b => pairLe a b = true) := by
  induction l with
  | nil => simp [insertPair]
  | cons y ys ih =>
    rw [List.pairwise_cons] at h
    obtain ⟨hy, hys⟩ := h
    by_cases hxy : pairLe x y = true
    · simp only [insertPair, if_pos hxy]
      refine List.Pairwise.cons ?_ (List.Pairwise.cons hy hys)
      intro z hz
      rcases List.mem_cons.mp hz with rfl | hz'
      · exact hxy
      · exact pairLe_trans x y z hxy (hy z hz')
    · simp only [insertPair, if_neg hxy]
      refine List.Pairwise.cons ?_ (ih hys)
      intro z hz
      rcases mem_insertPair hz with rfl | hz'
      · rcases pairLe_total z y with h' | h'
        · exact absurd h' hxy
        · exact h'
      · exact hy z hz'

theorem sortPairs_perm (l : List (String × String)) : (sortPairs l).Perm l := by
  induction l with
  | nil => exact List.Perm.refl _
  | cons x xs ih => exact (insertPair_perm x (sortPairs xs)).trans (ih.cons x)

theorem pairwise_sortPairs (l : List (String × String)) :
    (sortPairs l).Pairwise (fun a b => pairLe a b = true) := by
  induction l with
  | nil => exact List.Pairwise.nil
  | cons x xs ih => exact pairwise_insertPair x ih

theorem sortPairs_eq_of_perm {l l' : List (String × String)} (h : l.Perm l') :
    sortPairs l = sortPairs l' :=
  @List.eq_of_perm_of_sorted (String × String) (fun a b => pairLe a b = true)
    ⟨fun a b h1 h2 => pairLe_antisymm a b h1 h2⟩ (sortPairs l) (sortPairs l')
    ((sortPairs_perm l).trans (h.trans (sortPairs_perm l').symm))
    (pairwise_sortPairs l) (pairwise_sortPairs l')

theorem get_key_perm (V V' : List OSVariable) (L L' : List Distribution) (host : String)
    (hV : V'.Perm V) (hL : L'.Perm L) :
    get_key V' L' host = get_key V L host := by
  unfold get_key
  rw [sortPairs_eq_of_perm (hV.map (fun v => (v.key, v.value))),
    sortPairs_eq_of_perm (hL.map (fun d => (d.name, d.version)))]

theorem mem_yield_distributions_from :
    ∀ (l mask : List Distribution) (d : Distribution),
      d ∈ yield_distributions_from mask l ↔ d ∈ l ∧ d ∉ mask := by
  intro l
  induction l with
  | nil => intro mask d; simp [yield_distributions_from]
  | cons x rest ih =>
    intro mask d
    by_cases hx : x ∈ mask
    · rw [yield_distributions_from, if_pos hx, ih]
      constructor
      · rintro ⟨hd, hm⟩
        exact ⟨List.mem_cons_of_mem x hd, hm⟩
      · rintro ⟨hd, hm⟩
        rcases List.mem_cons.mp hd with rfl | hd'
        · exact absurd hx hm
        · exact ⟨hd', hm⟩
    · rw [yield_distributions_from, if_neg hx]
      rw [List.mem_cons, ih]
      constructor
      · rintro (rfl | ⟨hd, hm⟩)
        · exact ⟨List.mem_cons_self _ _, hx⟩
        · refine ⟨List.mem_cons_of_mem x hd, ?_⟩
          intro hc
          exact hm (List.mem_cons_of_mem x hc)
      · rintro ⟨hd, hm⟩
        rcases List.mem_cons.mp hd with rfl | hd'
        · exact Or.inl rfl
        · by_cases hdx : d = x
          · exact Or.inl hdx
          · refine Or.inr ⟨hd', ?_⟩
            intro hc
            rcases List.mem_cons.mp hc with h' | h'
            · exact hdx h'
            · exact hm h'

theorem sublist_yield_distributions_from :
    ∀ (l mask : List Distribution), (yield_distributions_from mask l).Sublist l := by
  intro l
  induction l with
  | nil => intro mask; simp [yield_distributions_from]
  | cons x rest ih =>
    intro mask
    by_cases hx : x ∈ mask
    · rw [yield_distributions_from, if_pos hx]
      exact (ih mask).cons x
    · rw [yield_distributions_from, if_neg hx]
      exact (ih (x :: mask)).cons₂ x

theorem nodup_yield_distributions_from :
    ∀ (l mask : List Distribution), (yield_distributions_from mask l).Nodup := by
  intro l
  induction l with
  | nil => intro mask; simp [yield_distributions_from]
  | cons x rest ih =>
    intro mask
    by_cases hx : x ∈ mask
    · rw [yield_distributions_from, if_pos hx]
      exact ih mask
    · rw [yield_distributions_from, if_neg hx]
      refine List.Nodup.cons ?_ (ih (x :: mask))
      intro hc
      exact ((mem_yield_distributions_from rest (x :: mask) x).mp hc).2
        (List.mem_cons_self x mask)

theorem matching_query_fallthrough_fst (s : Store) (cache : EnvironmentCache) (now : Nat)
    (k : CacheKey) (vs : List OSVariable) (ds : List Distribution) (hostname : String) :
    (matching_query_fallthrough s cache now k vs ds hostname).1 =
      query_scalar s vs ds hostname := by
  unfold matching_query_fallthrough
  cases query_scalar s vs ds hostname <;> rfl

theorem db_retry_loop_all_fail {α : Type} (max_retries : Nat) (f : Nat → DbOutcome α)
    (msg : String) (hf : ∀ k, f k = .dbError msg) :
    ∀ (remaining current_try attempts sleeps : Nat),
      1 ≤ remaining → remaining + current_try = max_retries + 1 →
      (db_retry_loop max_retries f remaining current_try attempts sleeps).result =
        .runtimeError msg ∧
      (db_retry_loop max_retries f remaining current_try attempts sleeps).attempts ≤
        attempts + remaining := by
  intro remaining
  induction remaining with
  | zero => intro ct a sl h1 _; omega
  | succ r ih =>
    intro ct a sl _ hinv
    simp only [db_retry_loop, hf ct]
    by_cases hc : ct + 1 ≥ max_retries
    · rw [if_pos hc]
      refine ⟨rfl, ?_⟩
      show a + 1 ≤ a + (r + 1)
      omega
    · rw [if_neg hc]
      have h1r : 1 ≤ r := by omega
      have hinv' : r + (ct + 1) = max_retries + 1 := by omega
      obtain ⟨hres, hatt⟩ := ih (ct + 1) (a + 1) (sl + 1) h1r hinv'
      exact ⟨hres, le_trans hatt (by omega)⟩

theorem insert_libraries_ok :
    ∀ (L : List Distribution) (s : Store) (m : List ((String × String) × Nat)),
      (dist_pair_list L).Nodup →
      (∀ d ∈ L, ∀ r ∈ s.libraries, ¬(r.name = d.name ∧ r.version = d.version)) →
      ∃ s' m', insert_libraries s m L = some (s', m') ∧
        s'.environments = s.environments ∧
        s'.variables_table = s.variables_table ∧
        s'.variable_environment_mappings = s.variable_environment_mappings ∧
        s'.library_environment_mappings = s.library_environment_mappings ∧
        s'.next_environment_id = s.next_environment_id ∧
        s'.next_variable_id = s.next_variable_id := by
  intro L
  induction L with
  | nil =>
    intro s m _ _
    exact ⟨s, m, rfl, rfl, rfl, rfl, rfl, rfl, rfl⟩
  | cons d rest ih =>
    intro s m hnd hfresh
    have hany : s.libraries.any (fun r => r.name == d.name && r.version == d.version)
        = false := by
      rw [List.any_eq_false]
      intro r hr
      have hx := hfresh d (List.mem_cons_self d rest) r hr
      simp only [Bool.and_eq_true, beq_iff_eq]
      exact fun hc => hx hc
    rw [dist_pair_list, List.map_cons, List.nodup_cons] at hnd
    obtain ⟨hdni, hndr⟩ := hnd
    have hfresh' : ∀ d' ∈ rest,
        ∀ r ∈ ({ s with
            libraries := s.libraries ++ [⟨s.next_library_id, d.name, d.version⟩],
            next_library_id := s.next_library_id + 1 } : Store).libraries,
        ¬(r.name = d'.name ∧ r.version = d'.version) := by
      intro d' hd' r hr
      rcases List.mem_append.mp hr with hr' | hr'
      · exact hfresh d' (List.mem_cons_of_mem d hd') r hr'
      · rcases List.mem_singleton.mp hr' with rfl
        rintro ⟨h1, h2⟩
        apply hdni
        have hpair : (d.name, d.version) = (d'.name, d'.version) := Prod.ext h1 h2
        rw [hpair]
        exact List.mem_map_of_mem (fun x => (x.name, x.version)) hd'
    obtain ⟨s', m', heq, h1, h2, h3, h4, h5, h6⟩ :=
      ih ({ s with
            libraries := s.libraries ++ [⟨s.next_library_id, d.name, d.version⟩],
            next_library_id := s.next_library_id + 1 } : Store)
        (kvSet m (d.name, d.version) s.next_library_id) hndr hfresh'
    refine ⟨s', m', ?_, h1, h2, h3, h4, h5, h6⟩
    have hil : insert_library s d = some
        (({ s with
            libraries := s.libraries ++ [⟨s.next_library_id, d.name, d.version⟩],
            next_library_id := s.next_library_id + 1 } : Store), s.next_library_id) := by
      rw [insert_library, if_neg (by rw [hany]; exact Bool.false_ne_true)]
    simp only [insert_libraries, hil]
    exact heq

theorem insert_variables_ok :
    ∀ (V : List OSVariable) (s : Store) (m : List ((String × String) × Nat)),
      (var_pair_list V).Nodup →
      (∀ v ∈ V, ∀ r ∈ s.variables_table, ¬(r.key = v.key ∧ r.value = v.value)) →
      ∃ s' m', insert_variables s m V = some (s', m') ∧
        s'.environments = s.environments ∧
        s'.libraries = s.libraries ∧
        s'.variable_environment_mappings = s.variable_environment_mappings ∧
        s'.library_environment_mappings = s.library_environment_mappings ∧
        s'.next_environment_id = s.next_environment_id ∧
        s'.next_library_id = s.next_library_id := by
  intro V
  induction V with
  | nil =>
    intro s m _ _
    exact ⟨s, m, rfl, rfl, rfl, rfl, rfl, rfl, rfl⟩
  | cons v rest ih =>
    intro s m hnd hfresh
    have hany : s.variables_table.any (fun r => r.key == v.key && r.value == v.value)
        = false := by
      rw [List.any_eq_false]
      intro r hr
      have hx := hfresh v (List.mem_cons_self v rest) r hr
      simp only [Bool.and_eq_true, beq_iff_eq]
      exact fun hc => hx hc
    rw [var_pair_list, List.map_cons, List.nodup_cons] at hnd
    obtain ⟨hvni, hndr⟩ := hnd
    have hfresh' : ∀ v' ∈ rest,
        ∀ r ∈ ({ s with
            variables_table := s.variables_table ++ [⟨s.next_variable_id, v.key, v.value⟩],
            next_variable_id := s.next_variable_id + 1 } : Store).variables_table,
        ¬(r.key = v'.key ∧ r.value = v'.value) := by
      intro v' hv' r hr
      rcases List.mem_append.mp hr with hr' | hr'
      · exact hfresh v' (List.mem_cons_of_mem v hv') r hr'
      · rcases List.mem_singleton.mp hr' with rfl
        rintro ⟨h1, h2⟩
        apply hvni
        have hpair : (v.key, v.value) = (v'.key, v'.value) := Prod.ext h1 h2
        rw [hpair]
        exact List.mem_map_of_mem (fun x => (x.key, x.value)) hv'
    obtain ⟨s', m', heq, h1, h2, h3, h4, h5, h6⟩ :=
      ih ({ s with
            variables_table := s.variables_table ++ [⟨s.next_variable_id, v.key, v.value⟩],
            next_variable_id := s.next_variable_id + 1 } : Store)
        (kvSet m (v.key, v.value) s.next_variable_id) hndr hfresh'
    refine ⟨s', m', ?_, h1, h2, h3, h4, h5, h6⟩
    have hil : insert_variable s v = some
        (({ s with
            variables_table := s.variables_table ++ [⟨s.next_variable_id, v.key, v.value⟩],
            next_variable_id := s.next_variable_id + 1 } : Store), s.next_variable_id) := by
      rw [insert_variable, if_neg (by rw [hany]; exact Bool.false_ne_true)]
    simp only [insert_variables, hil]
    exact heq

theorem reflect_libraries_bulk_of_no_rows (s : Store) (L : List Distribution)
    (hemp : s.libraries = []) (hnd : (dist_pair_list L).Nodup) :
    ∃ m s' q, reflect_libraries_bulk s L = some (m, s', q) ∧
      s'.environments = s.environments ∧
      s'.variables_table = s.variables_table ∧
      s'.variable_environment_mappings = s.variable_environment_mappings ∧
      s'.library_environment_mappings = s.library_environment_mappings ∧
      s'.next_environment_id = s.next_environment_id ∧
      s'.next_variable_id = s.next_variable_id := by
  by_cases hL : L.isEmpty
  · refine ⟨[], s, 0, ?_, rfl, rfl, rfl, rfl, rfl, rfl⟩
    rw [reflect_libraries_bulk, if_pos hL]
  · have hfresh : ∀ d ∈ L, ∀ r ∈ s.libraries, ¬(r.name = d.name ∧ r.version = d.version) := by
      rw [hemp]
      intro d _ r hr
      exact absurd hr (List.not_mem_nil r)
    obtain ⟨s', m', heq, h1, h2, h3, h4, h5, h6⟩ := insert_libraries_ok L s [] hnd hfresh
    refine ⟨m', s', 1 + L.length, ?_, h1, h2, h3, h4, h5, h6⟩
    rw [reflect_libraries_bulk, if_neg hL]
    have hex : s.libraries.filter
        (fun r => L.any (fun d => d.name == r.name && d.version == r.version)) = [] := by
      rw [hemp, List.filter_nil]
    rw [hex]
    have hto : L.filter
        (fun d => !(([] : List ((String × String) × Nat)).any
          (fun p => p.1 == (d.name, d.version)))) = L := by
      simp
    simp only [List.foldl_nil, hto, heq]

theorem reflect_variables_bulk_of_no_rows (s : Store) (V : List OSVariable)
    (hemp : s.variables_table = []) (hnd : (var_pair_list V).Nodup) :
    ∃ m s' q, reflect_variables_bulk s V = some (m, s', q) ∧
      s'.environments = s.environments ∧
      s'.libraries = s.libraries ∧
      s'.variable_environment_mappings = s.variable_environment_mappings ∧
      s'.library_environment_mappings = s.library_environment_mappings ∧
      s'.next_environment_id = s.next_environment_id ∧
      s'.next_library_id = s.next_library_id := by
  by_cases hV : V.isEmpty
  · refine ⟨[], s, 0, ?_, rfl, rfl, rfl, rfl, rfl, rfl⟩
    rw [reflect_variables_bulk, if_pos hV]
  · have hfresh : ∀ v ∈ V, ∀ r ∈ s.variables_table, ¬(r.key = v.key ∧ r.value = v.value) := by
      rw [hemp]
      intro v _ r hr
      exact absurd hr (List.not_mem_nil r)
    obtain ⟨s', m', heq, h1, h2, h3, h4, h5, h6⟩ := insert_variables_ok V s [] hnd hfresh
    refine ⟨m', s', 1 + V.length, ?_, h1, h2, h3, h4, h5, h6⟩
    rw [reflect_variables_bulk, if_neg hV]
    have hex : s.variables_table.filter
        (fun r => V.any (fun v => v.key == r.key && v.value == r.value)) = [] := by
      rw [hemp, List.filter_nil]
    rw [hex]
    have hto : V.filter
        (fun v => !(([] : List ((String × String) × Nat)).any
          (fun p => p.1 == (v.key, v.value)))) = V := by
      simp
    simp only [List.foldl_nil, hto, heq]

/-- C1: evaluation of the set-matching lookup on a store whose only
environment (id 1, host `h`) is associated with exactly the variables
`{(A,a), (B,b)}`.  The lookup for the subset `{(A,a)}` RETURNS the
environment (the claimed second, unfiltered per-environment row-count
check is absent from the code), the lookup for the superset
`{(A,a),(B,b),(C,c)}` returns no match, and the exact lookup matches.
The `matching_env_id_q` query of the model class behaves the same way on
the subset query.  This refutes the claim that a lookup for `{A}` returns
no match. -/
theorem dpt_c1_exact_set_match_gap :
    (get_matching_environment_single_query store_ab emptyCache 0
      [⟨"A", "a"⟩] [] "h").1 = some 1 ∧
    (get_matching_environment_single_query store_ab emptyCache 0
      [⟨"A", "a"⟩, ⟨"B", "b"⟩, ⟨"C", "c"⟩] [] "h").1 = none ∧
    (get_matching_environment_single_query store_ab emptyCache 0
      [⟨"A", "a"⟩, ⟨"B", "b"⟩] [] "h").1 = some 1 ∧
    VariableEnvironmentMap.matching_env_id_q store_ab [⟨"A", "a"⟩] = [1] := by
  decide

/-- C3: when every attempt of the wrapped function raises
`sqlalchemy.exc.DatabaseError`, `db_retry` makes at most `max_retries`
attempts and then raises `RuntimeError from` the last database error; it
never returns normally (in particular it never returns `None`). -/
theorem dpt_c3_retry_exhaustion_raises {α : Type} (max_retries : Nat)
    (f : Nat → DbOutcome α) (msg : String)
    (hmax : 1 ≤ max_retries) (hf : ∀ k, f k = .dbError msg) :
    (db_retry max_retries f).result = .runtimeError msg ∧
    (db_retry max_retries f).attempts ≤ max_retries := by
  have hr : max_retries + 1 - 1 = max_retries := by omega
  unfold db_retry
  rw [hr]
  have h := db_retry_loop_all_fail max_retries f msg hf max_retries 1 0 0 hmax (by omega)
  exact ⟨h.1, le_trans h.2 (by omega)⟩

/-- Witness for C3 at `max_retries = 2` (the decorator default) and a
function that always raises a database error. -/
theorem dpt_c3_retry_exhaustion_raises_witness :
    (db_retry 2 always_db_error).result = .runtimeError "deadlock detected" ∧
    (db_retry 2 always_db_error).attempts ≤ 2 :=
  dpt_c3_retry_exhaustion_raises 2 always_db_error "deadlock detected"
    (by decide) (fun _ => rfl)

/-- C4: `db_retry` catches only `sqlalchemy.exc.DatabaseError` (the
`except exc.DatabaseError` clause); a wrapped function raising any other
exception propagates it to the caller on the very first attempt, with
exactly one attempt made and zero calls to `sleep`. -/
theorem dpt_c4_non_db_error_propagates {α : Type} (max_retries : Nat)
    (f : Nat → DbOutcome α) (msg : String)
    (hmax : 1 ≤ max_retries) (hf : f 1 = .otherError msg) :
    db_retry max_retries f = ⟨.uncaught msg, 1, 0⟩ := by
  obtain ⟨r, rfl⟩ : ∃ r, max_retries = r + 1 := ⟨max_retries - 1, by omega⟩
  have hr : r + 1 + 1 - 1 = r + 1 := by omega
  unfold db_retry
  rw [hr]
  simp only [db_retry_loop, hf]

/-- Witness for C4 at `max_retries = 2` and a function raising a
configuration error. -/
theorem dpt_c4_non_db_error_propagates_witness :
    db_retry 2 always_config_error = ⟨.uncaught "configuration error", 1, 0⟩ :=
  dpt_c4_non_db_error_propagates 2 always_config_error "configuration error"
    (by decide) rfl

/-- C5: on an empty input list, both bulk reflectors return an empty map,
issue zero SQL statements, and leave every table of the store unchanged —
for every store state. -/
theorem dpt_c5_empty_input_no_query (s : Store) :
    reflect_variables_bulk s [] = some ([], s, 0) ∧
    reflect_libraries_bulk s [] = some ([], s, 0) :=
  ⟨rfl, rfl⟩

/-- C8 counterexample: two installed distributions sharing the name `A`
with different versions are BOTH yielded, so the output has two entries
for the name `A`; the claim that at most one entry per distinct name is
yielded (first occurrence per name wins) is false. -/
theorem dpt_c8_duplicate_name_counterexample :
    yield_distributions [⟨"A", "1"⟩, ⟨"A", "2"⟩] = [⟨"A", "1"⟩, ⟨"A", "2"⟩] ∧
    ((yield_distributions [⟨"A", "1"⟩, ⟨"A", "2"⟩]).filter
      (fun d => d.name == "A")).length = 2 := by
  decide

/-- C8 amended: `yield_distributions` yields one entry per distinct
`(name, version)` pair — its output has no duplicate pairs, preserves the
input order (it is a sublist of the input, so the first occurrence of each
pair wins), and contains exactly the pairs of the input. -/
theorem dpt_c8_one_entry_per_pair (installed : List Distribution) :
    (yield_distributions installed).Nodup ∧
    (yield_distributions installed).Sublist installed ∧
    (∀ d, d ∈ yield_distributions installed ↔ d ∈ installed) := by
  refine ⟨nodup_yield_distributions_from installed [],
    sublist_yield_distributions_from installed [], ?_⟩
  intro d
  rw [yield_distributions, mem_yield_distributions_from]
  simp

/-- C10 counterexample: a duplicated `(key, value)` pair that is absent
from the store makes `reflect_variables` raise (both copies reach the
insert batch and violate `UNIQUE (key, value)`, and the deterministic
retries end in `RuntimeError`, modelled by `none`) instead of returning a
two-element id list. -/
theorem dpt_c10_duplicate_fresh_pair_counterexample :
    reflect_variables emptyStore [⟨"K", "v"⟩, ⟨"K", "v"⟩] = none := by
  decide

/-- C10 amended: whenever the two reflectors return successfully,
`reflect_variables` returns one id per input position, in input order,
with equal `(key, value)` pairs receiving equal ids (so duplicates of an
already-stored pair repeat the same id), while `reflect_libraries`
returns a deduplicated set of ids, equal pairs collapsing to one
element. -/
theorem dpt_c10_reflection_result_shapes (s : Store) (V : List OSVariable)
    (D : List Distribution) (ids : List Nat) (sV : Store) (libids : Finset Nat)
    (sD : Store)
    (hV : reflect_variables s V = some (ids, sV))
    (hD : reflect_libraries s D = some (libids, sD)) :
    (∃ f : OSVariable → Nat, ids = V.map f ∧
      ∀ v w : OSVariable, v.key = w.key → v.value = w.value → f v = f w) ∧
    ids.length = V.length ∧
    (∃ g : Distribution → Nat, libids = (D.map g).toFinset ∧
      ∀ d e : Distribution, d.name = e.name → d.version = e.version → g d = g e) := by
  rcases hbulkV : reflect_variables_bulk s V with _ | ⟨m, sV', qV⟩
  · rw [reflect_variables, hbulkV] at hV
    exact Option.noConfusion hV
  rcases hbulkD : reflect_libraries_bulk s D with _ | ⟨mD, sD', qD⟩
  · rw [reflect_libraries, hbulkD] at hD
    exact Option.noConfusion hD
  rw [reflect_variables, hbulkV] at hV
  rw [reflect_libraries, hbulkD] at hD
  have h2 := Option.some.inj hV
  have h3 := Option.some.inj hD
  have hids : V.map (fun v => (kvGet m (v.key, v.value)).getD 0) = ids :=
    congrArg Prod.fst h2
  have hlib : (D.map (fun d => (kvGet mD (d.name, d.version)).getD 0)).toFinset = libids :=
    congrArg Prod.fst h3
  refine ⟨⟨fun v => (kvGet m (v.key, v.value)).getD 0, hids.symm, ?_⟩, ?_,
    ⟨fun d => (kvGet mD (d.name, d.version)).getD 0, hlib.symm, ?_⟩⟩
  · intro v w hk hv
    show (kvGet m (v.key, v.value)).getD 0 = (kvGet m (w.key, w.value)).getD 0
    rw [hk, hv]
  · rw [← hids, List.length_map]
  · intro d e hn hv
    show (kvGet mD (d.name, d.version)).getD 0 = (kvGet mD (e.name, e.version)).getD 0
    rw [hn, hv]

/-- Witness for C10 on a store already holding the variable `(K, v)` and
the library `(numpy, 1)`, with both inputs given as exact duplicates:
reflection succeeds, the variable ids repeat and the library ids
collapse. -/
theorem dpt_c10_reflection_result_shapes_witness :
    (∃ f : OSVariable → Nat, [1, 1] = List.map f [⟨"K", "v"⟩, ⟨"K", "v"⟩] ∧
      ∀ v w : OSVariable, v.key = w.key → v.value = w.value → f v = f w) ∧
    ([1, 1] : List Nat).length = ([⟨"K", "v"⟩, ⟨"K", "v"⟩] : List OSVariable).length ∧
    (∃ g : Distribution → Nat,
      ({1} : Finset Nat) = (List.map g [⟨"numpy", "1"⟩, ⟨"numpy", "1"⟩]).toFinset ∧
      ∀ d e : Distribution, d.name = e.name → d.version = e.version → g d = g e) :=
  dpt_c10_reflection_result_shapes store_leaves [⟨"K", "v"⟩, ⟨"K", "v"⟩]
    [⟨"numpy", "1"⟩, ⟨"numpy", "1"⟩] [1, 1] store_leaves {1} store_leaves
    (by decide) (by decide)

/-- C2 counterexample: on an empty store and cache, a variable list
containing the same `(key, value)` pair twice makes the first
`get_or_create_env` call raise (`RuntimeError` out of the retry-wrapped
bulk insert, modelled by `none`) instead of returning `(id, True)`. -/
theorem dpt_c2_duplicate_input_counterexample :
    get_or_create_env emptyStore emptyCache 0 [⟨"A", "a"⟩, ⟨"A", "a"⟩] [] "h" = none := by
  decide

/-- C7 counterexample: in a store where environment rows 2 and 1 (in that
physical order) both survive every filter of the lookup for `{(A, a)}`
on host `h`, the query returns environment 2, not the smallest id 1. -/
theorem dpt_c7_smallest_id_counterexample :
    env_candidates store_two_candidates [⟨"A", "a"⟩] [] "h" = [⟨2, "h"⟩, ⟨1, "h"⟩] ∧
    (get_matching_environment_single_query store_two_candidates emptyCache 0
      [⟨"A", "a"⟩] [] "h").1 = some 2 := by
  decide

/-- C7 amended: when at least one environment row survives the
variable-set, library-set, and host filters (in particular when more than
one does), the lookup returns — without raising — the id of the FIRST
surviving row in the store's physical row order (`LIMIT 1` with no
`ORDER BY`); the smallest id is not singled out. -/
theorem dpt_c7_returns_first_surviving_row (s : Store) (cache : EnvironmentCache)
    (now : Nat) (vs : List OSVariable) (ds : List Distribution) (host : String)
    (c' : EnvironmentCache) (env : Environment) (rest : List Environment)
    (hcache : cache.get now (get_key vs ds host) = (none, c'))
    (hcand : env_candidates s vs ds host = env :: rest) :
    (get_matching_environment_single_query s cache now vs ds host).1 = some env.id := by
  simp only [get_matching_environment_single_query, hcache,
    matching_query_fallthrough_fst, query_scalar, hcand, List.head?_cons,
    Option.map_some']

/-- Witness for C7 amended on the two-candidate store: the first surviving
row is environment 2. -/
theorem dpt_c7_returns_first_surviving_row_witness :
    (get_matching_environment_single_query store_two_candidates emptyCache 0
      [⟨"A", "a"⟩] [] "h").1 = some (⟨2, "h"⟩ : Environment).id :=
  dpt_c7_returns_first_surviving_row store_two_candidates emptyCache 0
    [⟨"A", "a"⟩] [] "h" emptyCache ⟨2, "h"⟩ [⟨1, "h"⟩] rfl (by decide)

/-- C9: with both the variable list and the distribution list empty (and
no live cache entry for that key), the lookup applies no set filter at
all: it returns the id of the first `Environment` row with the matching
host regardless of that environment's associations, and returns `None`
exactly when no row of the `environments` table has that host. -/
theorem dpt_c9_empty_query_host_only (s : Store) (cache : EnvironmentCache)
    (now : Nat) (host : String) (c' : EnvironmentCache)
    (hcache : cache.get now (get_key [] [] host) = (none, c')) :
    (get_matching_environment_single_query s cache now [] [] host).1 =
      ((s.environments.filter (fun e => e.host == host)).head?).map (fun e => e.id) ∧
    ((get_matching_environment_single_query s cache now [] [] host).1 = none ↔
      ∀ e ∈ s.environments, e.host ≠ host) ∧
    (∀ i, (get_matching_environment_single_query s cache now [] [] host).1 = some i →
      ∃ env ∈ s.environments, env.id = i ∧ env.host = host) := by
  have hcand : env_candidates s [] [] host =
      s.environments.filter (fun e => e.host == host) := by
    simp [env_candidates]
  have hmain : (get_matching_environment_single_query s cache now [] [] host).1 =
      ((s.environments.filter (fun e => e.host == host)).head?).map (fun e => e.id) := by
    simp only [get_matching_environment_single_query, hcache,
      matching_query_fallthrough_fst, query_scalar, hcand]
  refine ⟨hmain, ?_, ?_⟩
  · rw [hmain]
    cases hh : (s.environments.filter (fun e => e.host == host)).head? with
    | none =>
      simp only [Option.map_none']
      constructor
      · intro _ e he hhost
        have hnil : s.environments.filter (fun e => e.host == host) = [] :=
          List.head?_eq_none_iff.mp hh
        have hmem : e ∈ s.environments.filter (fun e => e.host == host) :=
          List.mem_filter.mpr ⟨he, by simp [hhost]⟩
        rw [hnil] at hmem
        exact absurd hmem (List.not_mem_nil e)
      · intro _
        trivial
    | some e =>
      simp only [Option.map_some']
      constructor
      · intro h
        exact Option.noConfusion h
      · intro hall
        exfalso
        cases hl : s.environments.filter (fun x => x.host == host) with
        | nil =>
          rw [hl] at hh
          exact Option.noConfusion hh
        | cons x xs =>
          have hxmem : x ∈ s.environments.filter (fun x => x.host == host) := by
            rw [hl]
            exact List.mem_cons_self x xs
          obtain ⟨hmm, hcond⟩ := List.mem_filter.mp hxmem
          exact hall x hmm (by simpa using hcond)
  · intro i hi
    rw [hmain] at hi
    cases hh : (s.environments.filter (fun x => x.host == host)).head? with
    | none =>
      rw [hh] at hi
      exact Option.noConfusion hi
    | some e =>
      rw [hh] at hi
      have hei : e.id = i := Option.some.inj hi
      cases hl : s.environments.filter (fun x => x.host == host) with
      | nil =>
        rw [hl] at hh
        exact Option.noConfusion hh
      | cons x xs =>
        rw [hl] at hh
        have hex : x = e := Option.some.inj hh
        have hxmem : x ∈ s.environments.filter (fun x => x.host == host) := by
          rw [hl]
          exact List.mem_cons_self x xs
        obtain ⟨hmm, hcond⟩ := List.mem_filter.mp hxmem
        exact ⟨x, hmm, by rw [hex]; exact hei, by simpa using hcond⟩

/-- Witness for C9 on a store holding only environment 7 on host `h`,
whose association sets are empty — the empty-input lookup returns it. -/
theorem dpt_c9_empty_query_host_only_witness :
    (get_matching_environment_single_query store_host_only emptyCache 0 [] [] "h").1 =
      ((store_host_only.environments.filter (fun e => e.host == "h")).head?).map
        (fun e => e.id) ∧
    ((get_matching_environment_single_query store_host_only emptyCache 0 [] [] "h").1 =
        none ↔ ∀ e ∈ store_host_only.environments, e.host ≠ "h") ∧
    (∀ i, (get_matching_environment_single_query store_host_only emptyCache 0
        [] [] "h").1 = some i →
      ∃ env ∈ store_host_only.environments, env.id = i ∧ env.host = "h") :=
  dpt_c9_empty_query_host_only store_host_only emptyCache 0 "h" emptyCache rfl

/-- C6: when the cache returns a hit for the `(variables, libraries,
hostname)` key, the lookup verifies that an `Environment` row with the
cached id still exists: if it does, the cached id is returned and the
cache is untouched; if it does not, the stale entry is evicted and the
lookup falls through to the full set-matching query. -/
theorem dpt_c6_cache_hit_verified (s : Store) (cache : EnvironmentCache) (now : Nat)
    (vs : List OSVariable) (ds : List Distribution) (host : String)
    (cid : Nat) (c' : EnvironmentCache)
    (hhit : cache.get now (get_key vs ds host) = (some cid, c')) :
    ((∃ env ∈ s.environments, env.id = cid) →
      get_matching_environment_single_query s cache now vs ds host = (some cid, c')) ∧
    ((¬∃ env ∈ s.environments, env.id = cid) →
      get_matching_environment_single_query s cache now vs ds host =
        matching_query_fallthrough s (c'.pop (get_key vs ds host)) now
          (get_key vs ds host) vs ds host ∧
      (get_matching_environment_single_query s cache now vs ds host).1 =
        query_scalar s vs ds host) := by
  have hany : (s.environments.any (fun env => env.id == cid) = true) ↔
      ∃ env ∈ s.environments, env.id = cid := by
    rw [List.any_eq_true]
    simp only [beq_iff_eq]
  constructor
  · intro hex
    simp only [get_matching_environment_single_query, hhit]
    rw [if_pos (hany.mpr hex)]
  · intro hnex
    have hfalse : s.environments.any (fun env => env.id == cid) = false := by
      cases h : s.environments.any (fun env => env.id == cid)
      · rfl
      · exact absurd (hany.mp h) hnex
    constructor
    · simp only [get_matching_environment_single_query, hhit]
      rw [if_neg (by rw [hfalse]; exact Bool.false_ne_true)]
    · simp only [get_matching_environment_single_query, hhit]
      rw [if_neg (by rw [hfalse]; exact Bool.false_ne_true),
        matching_query_fallthrough_fst]

/-- Witness for C6: a live cache hit (id 7 exists in the store) is
returned as-is, and — instantiating the same theorem — the conclusion also
covers the eviction branch vacuously. -/
theorem dpt_c6_cache_hit_verified_witness :
    ((∃ env ∈ store_host_only.environments, env.id = 7) →
      get_matching_environment_single_query store_host_only cache_with_live_hit 10
        [] [] "h" = (some 7, cache_with_live_hit)) ∧
    ((¬∃ env ∈ store_host_only.environments, env.id = 7) →
      get_matching_environment_single_query store_host_only cache_with_live_hit 10
        [] [] "h" =
        matching_query_fallthrough store_host_only
          (cache_with_live_hit.pop (get_key [] [] "h")) 10 (get_key [] [] "h") [] [] "h" ∧
      (get_matching_environment_single_query store_host_only cache_with_live_hit 10
        [] [] "h").1 = query_scalar store_host_only [] [] "h") :=
  dpt_c6_cache_hit_verified store_host_only cache_with_live_hit 10 [] [] "h" 7
    cache_with_live_hit (by decide)

/-- C2 amended: starting from an empty store and an empty cache, for
duplicate-free variable and distribution lists `V` and `L`,
`get_or_create_env` returns `(id, True)`; an immediate second call (within
the 300-second cache TTL) with any permutations `V'` of `V` and `L'` of
`L` returns `(id, False)` with the same id and leaves the store — hence
every `Environment`, `Variable`, `Library`, and association table — and
the cache unchanged. -/
theorem dpt_c2_round_trip (V V' : List OSVariable) (L L' : List Distribution)
    (host : String) (now now' : Nat)
    (hndV : (var_pair_list V).Nodup) (hndL : (dist_pair_list L).Nodup)
    (hpV : V'.Perm V) (hpL : L'.Perm L) (httl : now' - now < 300) :
    ∃ id s1 c1,
      get_or_create_env emptyStore emptyCache now V L host = some ((id, true), s1, c1) ∧
      get_or_create_env s1 c1 now' V' L' host = some ((id, false), s1, c1) := by
  have henv : get_environment emptyStore emptyCache now V L host = (none, emptyCache) := rfl
  obtain ⟨mL, sa, q1, hLb, hL1, hL2, hL3, hL4, hL5, hL6⟩ :=
    reflect_libraries_bulk_of_no_rows emptyStore L rfl hndL
  have hsav : sa.variables_table = [] := hL2
  obtain ⟨mV, sb, q2, hVb, hV1, hV2, hV3, hV4, hV5, hV6⟩ :=
    reflect_variables_bulk_of_no_rows sa V hsav hndV
  refine ⟨sb.next_environment_id,
    { sb with
      environments := sb.environments ++ [⟨sb.next_environment_id, host⟩],
      next_environment_id := sb.next_environment_id + 1,
      library_environment_mappings := sb.library_environment_mappings ++
        mL.map (fun p => ⟨sb.next_environment_id, p.2⟩),
      variable_environment_mappings := sb.variable_environment_mappings ++
        mV.map (fun p => ⟨sb.next_environment_id, p.2⟩) },
    EnvironmentCache.set emptyCache now (get_key V L host) sb.next_environment_id,
    ?_, ?_⟩
  · simp only [get_or_create_env, henv, hLb, hVb]
  · have hkey : get_key V' L' host = get_key V L host :=
      get_key_perm V V' L L' host hpV hpL
    have hget : (EnvironmentCache.set emptyCache now (get_key V L host)
          sb.next_environment_id).get now' (get_key V' L' host) =
        (some sb.next_environment_id,
          EnvironmentCache.set emptyCache now (get_key V L host)
            sb.next_environment_id) := by
      rw [hkey]
      simp only [EnvironmentCache.get, EnvironmentCache.set, kvGet_kvSet_self]
      rw [if_pos (show now' - now < emptyCache.ttl from httl)]
    have hexist : ({ sb with
        environments := sb.environments ++ [⟨sb.next_environment_id, host⟩],
        next_environment_id := sb.next_environment_id + 1,
        library_environment_mappings := sb.library_environment_mappings ++
          mL.map (fun p => ⟨sb.next_environment_id, p.2⟩),
        variable_environment_mappings := sb.variable_environment_mappings ++
          mV.map (fun p => ⟨sb.next_environment_id, p.2⟩) } : Store).environments.any
        (fun env => env.id == sb.next_environment_id) = true := by
      simp [List.any_append]
    simp only [get_or_create_env, get_environment,
      get_matching_environment_single_query, hget, hexist, if_true]

/-- Witness for C2 on the concrete scenario of the spec: two variables,
one library, the second call with the variables permuted, five seconds
later. -/
theorem dpt_c2_round_trip_witness :
    ∃ id s1 c1,
      get_or_create_env emptyStore emptyCache 0
        [⟨"HOME", "/h"⟩, ⟨"LANG", "en"⟩] [⟨"numpy", "1.26.0"⟩] "w" =
        some ((id, true), s1, c1) ∧
      get_or_create_env s1 c1 5
        [⟨"LANG", "en"⟩, ⟨"HOME", "/h"⟩] [⟨"numpy", "1.26.0"⟩] "w" =
        some ((id, false), s1, c1) :=
  dpt_c2_round_trip [⟨"HOME", "/h"⟩, ⟨"LANG", "en"⟩]
    [⟨"LANG", "en"⟩, ⟨"HOME", "/h"⟩] [⟨"numpy", "1.26.0"⟩] [⟨"numpy", "1.26.0"⟩]
    "w" 0 5 (by decide) (by decide) (by decide) (by decide) (by decide)

end DPT
